import Mathlib

/-!
Verification of the SIS grading engine.

This file is a shallow embedding of the grading core of the SIS repository
(src/grading/models.py, src/grading/forms.py, src/grading/views.py) together
with theorems settling the stated properties of that code.

Modelling conventions:
* Python `Decimal` values are modelled as exact rationals `ℚ`.
* Database tables and querysets are modelled as Lean lists, kept in the
  table's default ordering where the code relies on it
  (`GradingScale.Meta.ordering = ['-min_score']`).
* Django's `queryset.filter(...).first()` becomes `List.filter` + `List.head?`.
* Nullable columns become `Option` values; `ValidationError` paths become
  `Except String` results.
* Python truthiness tests on `Decimal`/`None` values (`if weighted:`,
  `if tg.total_score`) are modelled exactly: `none` and `0` are falsy.
-/

namespace SIS

/-- `AssessmentType` (src/grading/models.py:76-114), restricted to the field
the grading computation reads. -/
structure AssessmentType where
  is_exam : Bool
deriving DecidableEq

/-- `SubjectAssessment` (src/grading/models.py:117-200): a concrete gradable
event with its own `max_score` (a positive integer field) and `weight`. -/
structure SubjectAssessment where
  id : Nat
  max_score : Nat
  weight : ℚ
  assessment_type : AssessmentType
deriving DecidableEq

/-- `StudentGrade` (src/grading/models.py:203-284): one student's raw score for
one assessment; `score` is nullable and `is_excused` marks an excused absence. -/
structure StudentGrade where
  assessment_id : Nat
  score : Option ℚ
  is_excused : Bool
deriving DecidableEq

/-- `StudentGrade.get_percentage` (src/grading/models.py:273-277): `None` when
the score is absent or the grade is excused, else `score / max_score * 100`. -/
def get_percentage (a : SubjectAssessment) (g : StudentGrade) : Option ℚ :=
  match g.score with
  | none => none
  | some s => if g.is_excused then none else some (s / (a.max_score : ℚ) * 100)

/-- `StudentGrade.get_weighted_score` (src/grading/models.py:279-284): `None`
when the percentage is `None`, else `percentage * weight / 100`. -/
def get_weighted_score (a : SubjectAssessment) (g : StudentGrade) : Option ℚ :=
  match get_percentage a g with
  | none => none
  | some p => some (p * a.weight / 100)

/-- One row of the `GradingScale` table (src/grading/models.py:287-345). -/
structure GradingScale where
  grade : String
  min_score : ℚ
  max_score : ℚ
  grade_point : ℚ
deriving DecidableEq

/-- The queryset filter `min_score__lte=score, max_score__gte=score` used by
`GradingScale.get_grade_for_score`. -/
def bandContains (s : ℚ) (b : GradingScale) : Bool :=
  decide (b.min_score ≤ s) && decide (s ≤ b.max_score)

/-- `GradingScale.get_grade_for_score` (src/grading/models.py:334-345):
`None` for a `None` score, else the grade of the first matching band of the
table in its default ordering (`Meta.ordering = ['-min_score']`), or `None`
when no band matches.  `scale` is the table in that default ordering. -/
def get_grade_for_score (scale : List GradingScale) (score : Option ℚ) :
    Option String :=
  match score with
  | none => none
  | some s =>
    match (scale.filter (bandContains s)).head? with
    | some b => some b.grade
    | none => none

/-- Derived fields of a `TermGrade` row (src/grading/models.py:348-428). -/
structure TermGrade where
  continuous_assessment_score : Option ℚ
  exam_score : Option ℚ
  total_score : Option ℚ
  grade : String
  grade_point : Option ℚ
deriving DecidableEq

/-- The lookup `StudentGrade.objects.filter(assessment=..., student=...,
is_excused=False).first()` performed by `TermGrade.calculate_scores`
(src/grading/models.py:442-446); `grades` is the student's grade ledger. -/
def firstGradeFor (grades : List StudentGrade) (a : SubjectAssessment) :
    Option StudentGrade :=
  (grades.filter (fun g => g.assessment_id == a.id && g.is_excused == false)).head?

/-- One iteration of the accumulation loop of `TermGrade.calculate_scores`
(src/grading/models.py:441-455); the accumulator is `(ca_total, exam_total,
total)`.  The test `if weighted:` is Python truthiness: `None` and `0` are
both skipped. -/
def calcStep (grades : List StudentGrade) (acc : ℚ × ℚ × ℚ)
    (a : SubjectAssessment) : ℚ × ℚ × ℚ :=
  match firstGradeFor grades a with
  | none => acc
  | some g =>
    match g.score with
    | none => acc
    | some _ =>
      match get_weighted_score a g with
      | none => acc
      | some w =>
        if w ≠ 0 then
          if a.assessment_type.is_exam then (acc.1, acc.2.1 + w, acc.2.2 + w)
          else (acc.1 + w, acc.2.1, acc.2.2 + w)
        else acc

/-- The `grade_point` update of `TermGrade.calculate_scores`
(src/grading/models.py:464-468): only inside `if self.grade:` and only when
the lookup `GradingScale.objects.filter(grade=self.grade).first()` finds a
row is `grade_point` assigned; otherwise the prior value survives. -/
def grade_point_update (scale : List GradingScale) (grade : String)
    (prior : Option ℚ) : Option ℚ :=
  if grade ≠ "" then
    match (scale.filter (fun b => b.grade == grade)).head? with
    | some b => some b.grade_point
    | none => prior
  else prior

/-- `TermGrade.calculate_scores` (src/grading/models.py:430-470).
`assessments` is the queryset for the row's (class_subject, grading_period),
`grades` the student's grade ledger, `scale` the `GradingScale` table in its
default ordering, and `tg` the row's fields before the run. -/
def calculate_scores (assessments : List SubjectAssessment)
    (grades : List StudentGrade) (scale : List GradingScale)
    (tg : TermGrade) : TermGrade :=
  let acc := assessments.foldl (calcStep grades) (0, 0, 0)
  let grade := (get_grade_for_score scale (some acc.2.2)).getD ""
  { continuous_assessment_score := some acc.1
    exam_score := some acc.2.1
    total_score := some acc.2.2
    grade := grade
    grade_point := grade_point_update scale grade tg.grade_point }

/-- The two columns of a `TermGrade` row read by
`ReportCard.calculate_overall_metrics`. -/
structure TermGradeRow where
  total_score : Option ℚ
  grade_point : Option ℚ
deriving DecidableEq

/-- Grade-derived fields of a `ReportCard` row (src/grading/models.py:529-618). -/
structure ReportCard where
  total_score : Option ℚ
  average_score : Option ℚ
  gpa : Option ℚ
deriving DecidableEq

/-- Python `sum(x for x in l if x)` over nullable decimals: `None` and `0`
are falsy and skipped (skipping `0` does not change the sum). -/
def pySum (l : List (Option ℚ)) : ℚ :=
  l.foldl (fun s o =>
    match o with
    | some v => if v ≠ 0 then s + v else s
    | none => s) 0

/-- Division that fails explicitly on a zero divisor, modelling the
`DivisionByZero` a Python `Decimal` division would raise. -/
def checkedDiv (a b : ℚ) : Except String ℚ :=
  if b = 0 then .error "division by zero" else .ok (a / b)

/-- The grade-metric part of `ReportCard.calculate_overall_metrics`
(src/grading/models.py:623-639): guarded by `if term_grades.exists():`, it
sums the truthy `total_score` values, divides by the full row count, then
does the same for `grade_point`.  When the queryset is empty the fields are
left untouched.  The attendance part of the method (lines 641-654) reads
only attendance records and is not modelled here. -/
def calculate_overall_metrics (term_grades : List TermGradeRow)
    (rc : ReportCard) : Except String ReportCard :=
  if term_grades.isEmpty then .ok rc
  else
    let total := pySum (term_grades.map (fun tg => tg.total_score))
    let count : Nat := term_grades.length
    match (if 0 < count then (checkedDiv total (count : ℚ)).map some
           else .ok none) with
    | .error e => .error e
    | .ok average_score =>
      let gpa_sum := pySum (term_grades.map (fun tg => tg.grade_point))
      match (if 0 < count then (checkedDiv gpa_sum (count : ℚ)).map some
             else .ok none) with
      | .error e => .error e
      | .ok gpa =>
        .ok { total_score := some total
              average_score := average_score
              gpa := gpa }

/-- `StudentGradeForm.clean_score` (src/grading/forms.py:241-258): an excused
submission gets `None`; otherwise, when both a score and an assessment are
present, scores above `max_score` or below `0` are rejected. -/
def clean_score (assessment : Option SubjectAssessment) (score : Option ℚ)
    (is_excused : Bool) : Except String (Option ℚ) :=
  if is_excused then .ok none
  else
    match score, assessment with
    | some s, some a =>
      if s > (a.max_score : ℚ) then .error "Score cannot exceed maximum score"
      else if s < 0 then .error "Score cannot be negative"
      else .ok (some s)
    | _, _ => .ok score

/-- Upsert of a `StudentGrade` keyed by assessment (the `unique_together`
`[['assessment', 'student']]` key, with the student fixed): replace the
matching row, or append when none exists. -/
def upsertGrade (grades : List StudentGrade) (g : StudentGrade) :
    List StudentGrade :=
  if grades.any (fun q => q.assessment_id == g.assessment_id) then
    grades.map (fun q => if q.assessment_id == g.assessment_id then g else q)
  else grades ++ [g]

/-- Modelled from the spec: `record_score` (spec §4.3).  The grade-entry views
of src/grading/views.py are placeholders, so the upsert operation itself is
absent from src/; only its validation (`StudentGradeForm.clean_score`,
src/grading/forms.py:241-258) is present.  Following §4.3, the submitted
score is cleaned by the form and, on success, the (assessment, student) row
is upserted with the cleaned score. -/
def record_score (grades : List StudentGrade) (a : SubjectAssessment)
    (score : Option ℚ) (is_excused : Bool) :
    Except String (List StudentGrade) :=
  match clean_score (some a) score is_excused with
  | .error e => .error e
  | .ok s =>
    .ok (upsertGrade grades { assessment_id := a.id, score := s,
                              is_excused := is_excused })

/-- The caller-side effect of a `record_score` submission on the stored
ledger: an invalid form saves nothing, so the ledger is unchanged on failure. -/
def record_score_result (grades : List StudentGrade) (a : SubjectAssessment)
    (score : Option ℚ) (is_excused : Bool) : List StudentGrade :=
  match record_score grades a score is_excused with
  | .ok l => l
  | .error _ => grades

/-- `GradingPeriod` (src/grading/models.py:21-73), restricted to the primary
key and the `is_current` flag. -/
structure GradingPeriod where
  id : Nat
  is_current : Bool
deriving DecidableEq

/-- Row upsert by primary key performed by `super().save()`. -/
def upsertPeriod (db : List GradingPeriod) (p : GradingPeriod) :
    List GradingPeriod :=
  if db.any (fun q => q.id == p.id) then
    db.map (fun q => if q.id == p.id then p else q)
  else db ++ [p]

/-- `GradingPeriod.save` (src/grading/models.py:63-67): when the saved period
is current, first run `GradingPeriod.objects.filter(is_current=True)
.update(is_current=False)` over the whole table, then write the row. -/
def save_period (db : List GradingPeriod) (p : GradingPeriod) :
    List GradingPeriod :=
  let db' := if p.is_current then
      db.map (fun q => { q with is_current := false })
    else db
  upsertPeriod db' p

/-- `set_current_period` (src/grading/views.py:169-184): set `is_current` on
the fetched period and save it. -/
def set_current_period (db : List GradingPeriod) (p : GradingPeriod) :
    List GradingPeriod :=
  save_period db { p with is_current := true }

/-- Number of rows of the `GradingPeriod` table with `is_current=True`. -/
def currentCount (db : List GradingPeriod) : Nat :=
  (db.filter (fun q => q.is_current)).length

/-- An assessment counts toward the term totals when the student has a
non-excused `StudentGrade` row for it carrying a non-`None` score. -/
def hasRecordedScore (grades : List StudentGrade) (a : SubjectAssessment) :
    Bool :=
  match firstGradeFor grades a with
  | some g => g.score.isSome
  | none => false

/-- The weighted score the student's grade row contributes for an assessment
(`0` when there is no contributing row). -/
def weightedContribution (grades : List StudentGrade) (a : SubjectAssessment) :
    ℚ :=
  match firstGradeFor grades a with
  | some g => (get_weighted_score a g).getD 0
  | none => 0

/-- Per-assessment contribution to `ca_total`: the weighted score of
non-exam assessments with a recorded score, `0` otherwise. -/
def caContrib (grades : List StudentGrade) (a : SubjectAssessment) : ℚ :=
  if !a.assessment_type.is_exam && hasRecordedScore grades a then
    weightedContribution grades a
  else 0

/-- Per-assessment contribution to `exam_total`: the weighted score of exam
assessments with a recorded score, `0` otherwise. -/
def examContrib (grades : List StudentGrade) (a : SubjectAssessment) : ℚ :=
  if a.assessment_type.is_exam && hasRecordedScore grades a then
    weightedContribution grades a
  else 0

/-- An element selected by `filter ... |>.head?` is a member of the list and
satisfies the filter predicate. -/
theorem head?_filter_mem {α : Type} {p : α → Bool} {l : List α} {x : α}
    (h : (l.filter p).head? = some x) : x ∈ l ∧ p x = true := by
  have hx : x ∈ l.filter p := List.mem_of_mem_head? (by simp [h])
  exact ⟨(List.mem_filter.mp hx).1, (List.mem_filter.mp hx).2⟩

/-- The grade row selected by `firstGradeFor` belongs to the ledger, is keyed
to the assessment, and is not excused. -/
theorem firstGradeFor_spec {grades : List StudentGrade} {a : SubjectAssessment}
    {g : StudentGrade} (h : firstGradeFor grades a = some g) :
    g ∈ grades ∧ g.assessment_id = a.id ∧ g.is_excused = false := by
  unfold firstGradeFor at h
  have := head?_filter_mem h
  refine ⟨this.1, ?_, ?_⟩
  · have := this.2
    simp only [Bool.and_eq_true, beq_iff_eq] at this
    exact this.1
  · have := this.2
    simp only [Bool.and_eq_true, beq_iff_eq] at this
    exact this.2

/-- C4: for every `record_score` upsert with `is_excused=True`, the stored
score is `None` regardless of the score value supplied in the input
(`StudentGradeForm.clean_score` returns `None` before any range check, and
the upsert stores that cleaned value). -/
theorem record_score_excused_stores_none (grades : List StudentGrade)
    (a : SubjectAssessment) (score : Option ℚ) :
    ∃ grades', record_score grades a score true = .ok grades' ∧
      ∀ g ∈ grades', g.assessment_id = a.id → g.score = none := by
  refine ⟨upsertGrade grades ⟨a.id, none, true⟩, rfl, ?_⟩
  intro g hg hid
  unfold upsertGrade at hg
  by_cases hany : grades.any (fun q => q.assessment_id == a.id)
  · simp only [hany, if_true, List.mem_map] at hg
    obtain ⟨q, _, hgq⟩ := hg
    by_cases hq2 : q.assessment_id = a.id
    · simp only [hq2, beq_self_eq_true, if_true] at hgq
      rw [← hgq]
    · simp only [beq_eq_false_iff_ne.mpr hq2, Bool.false_eq_true, if_false] at hgq
      exact absurd (hgq ▸ hid) hq2
  · simp only [hany, Bool.false_eq_true, if_false, List.mem_append,
      List.mem_singleton] at hg
    rcases hg with hg | hg
    · rw [Bool.not_eq_true, List.any_eq_false] at hany
      exact absurd (beq_iff_eq.mpr hid) (by simpa using hany g hg)
    · rw [hg]

/-- C5 (counterexample): the claim fails as stated, because an excused
submission bypasses the range check entirely: with `max_score = 100` and a
submitted score of `101 > 100`, `record_score` with `is_excused=True`
succeeds instead of failing with a validation error (the score is forced to
`None` before the range check runs). -/
theorem record_score_excused_bypasses_range_check :
    record_score [] ⟨1, 100, 10, ⟨false⟩⟩ (some 101) true =
      .ok [⟨1, none, true⟩] ∧ (100:ℚ) < 101 :=
  ⟨rfl, by decide⟩

/-- C5 (amended): for every non-excused `record_score` submission, the upsert
fails with a validation error whenever the score exceeds `max_score` or is
negative, leaving the stored ledger unchanged, and accepts the boundary
values `0` and `max_score`; an excused submission bypasses the range check,
its stored score forced to `None`. -/
theorem record_score_range_enforcement (grades : List StudentGrade)
    (a : SubjectAssessment) (s : ℚ) :
    (((a.max_score : ℚ) < s ∨ s < 0) →
      (∃ e, record_score grades a (some s) false = .error e) ∧
        record_score_result grades a (some s) false = grades) ∧
    (0 ≤ s → s ≤ (a.max_score : ℚ) →
      ∃ grades', record_score grades a (some s) false = .ok grades') := by
  constructor
  · intro hrange
    have herr : ∃ e, record_score grades a (some s) false = .error e := by
      unfold record_score clean_score
      rcases hrange with h | h
      · simp [gt_iff_lt, h]
      · have hns : ¬ ((a.max_score : ℚ) < s) :=
          not_lt.mpr (le_trans h.le (Nat.cast_nonneg _))
        simp [gt_iff_lt, hns, h]
    obtain ⟨e, he⟩ := herr
    exact ⟨⟨e, he⟩, by unfold record_score_result; rw [he]⟩
  · intro h0 hmax
    have hns : ¬ ((a.max_score : ℚ) < s) := not_lt.mpr hmax
    have hnn : ¬ (s < 0) := not_lt.mpr h0
    unfold record_score clean_score
    simp [gt_iff_lt, hns, hnn]

/-- C5 (witness): the range-enforcement theorem applied at `max_score = 100`
with the failing score `101` and the accepted boundary score `100`. -/
theorem record_score_range_enforcement_witness :
    ((((⟨1, 100, 10, ⟨false⟩⟩ : SubjectAssessment).max_score : ℚ) < 101 ∨
        (101:ℚ) < 0) ∧
      ((∃ e, record_score [] ⟨1, 100, 10, ⟨false⟩⟩ (some 101) false = .error e) ∧
        record_score_result [] ⟨1, 100, 10, ⟨false⟩⟩ (some 101) false = [])) ∧
    ((0:ℚ) ≤ 100 ∧
      ∃ grades', record_score [] ⟨1, 100, 10, ⟨false⟩⟩ (some 100) false =
        .ok grades') :=
  ⟨⟨Or.inl (by decide),
    (record_score_range_enforcement [] ⟨1, 100, 10, ⟨false⟩⟩ 101).1
      (Or.inl (by decide))⟩,
   ⟨by decide,
    (record_score_range_enforcement [] ⟨1, 100, 10, ⟨false⟩⟩ 100).2
      (by decide) (by decide)⟩⟩

/-- C7 (counterexample): the claim fails as stated, because with zero
`TermGrade` rows the whole metrics block is skipped (`if term_grades.exists():`),
so a report card whose `average_score` already holds `50` keeps `50` instead
of being set to `None`. -/
theorem zero_rows_keeps_prior_metrics :
    calculate_overall_metrics [] ⟨none, some 50, some 3⟩ =
      .ok ⟨none, some 50, some 3⟩ ∧ some (50:ℚ) ≠ none :=
  ⟨rfl, by decide⟩

/-- C7 (amended): for every enrollment and grading period with zero
`TermGrade` rows, `calculate_overall_metrics` completes without a division
error and leaves `total_score`, `average_score` and `gpa` unchanged; on a
freshly generated report card, whose fields default to `None`, they are
therefore `None`. -/
theorem zero_rows_no_division_error (rc : ReportCard) :
    calculate_overall_metrics [] rc = .ok rc :=
  rfl

/-- C3 (counterexample): the claim fails as stated, because `grade_point` is
rewritten only inside `if self.grade:`; with an empty grading scale (no band
matches any total) and identical current inputs, two runs started from prior
`grade_point` values `3` and `1` end with different `grade_point` values, so
the result is not determined solely by the current assessments, student
grades and grading scale. -/
theorem grade_point_retains_prior_value :
    (calculate_scores [] [] [] ⟨none, none, none, "", some 3⟩).grade_point =
      some 3 ∧
    (calculate_scores [] [] [] ⟨none, none, none, "", some 1⟩).grade_point =
      some 1 ∧
    some (3:ℚ) ≠ some 1 :=
  ⟨rfl, rfl, by decide⟩

/-- C1 (code bug): on two `TermGrade` rows with `grade_point` values `4` and
`None`, `calculate_overall_metrics` computes `gpa = 4 / 2 = 2` — the sum
skips the `None` row but the denominator is the full row count — whereas
excluding the `None` row from the denominator, as the spec mandates, would
give `4 / 1 = 4`. -/
theorem gpa_divides_by_total_row_count :
    calculate_overall_metrics [⟨some 80, some 4⟩, ⟨some 60, none⟩]
      ⟨none, none, none⟩ = .ok ⟨some 140, some 70, some 2⟩ ∧
    (2:ℚ) ≠ 4 := by
  refine ⟨?_, by norm_num⟩
  unfold calculate_overall_metrics pySum checkedDiv
  norm_num [Except.map]

/-- A grade row with a recorded score and selected by `firstGradeFor` has a
defined weighted score, namely `score / max_score * 100 * weight / 100`. -/
theorem get_weighted_score_of_recorded {grades : List StudentGrade}
    {a : SubjectAssessment} {g : StudentGrade} {s : ℚ}
    (hf : firstGradeFor grades a = some g) (hs : g.score = some s) :
    get_weighted_score a g =
      some (s / (a.max_score : ℚ) * 100 * a.weight / 100) := by
  have hex := (firstGradeFor_spec hf).2.2
  unfold get_weighted_score get_percentage
  rw [hs]
  simp [hex]

/-- One loop iteration of `calculate_scores` adds exactly the per-assessment
contributions to the three accumulators. -/
theorem calcStep_eq (grades : List StudentGrade) (acc : ℚ × ℚ × ℚ)
    (a : SubjectAssessment) :
    calcStep grades acc a =
      (acc.1 + caContrib grades a, acc.2.1 + examContrib grades a,
       acc.2.2 + caContrib grades a + examContrib grades a) := by
  unfold calcStep caContrib examContrib hasRecordedScore weightedContribution
  cases hf : firstGradeFor grades a with
  | none => simp
  | some g =>
    cases hs : g.score with
    | none => simp [hs]
    | some s =>
      have hw := get_weighted_score_of_recorded hf hs
      simp only [hs, hw, Option.isSome_some, Bool.and_true, Option.getD_some]
      by_cases hz : (s / (a.max_score : ℚ) * 100 * a.weight / 100) = 0
      · cases he : a.assessment_type.is_exam <;> simp [hz, he]
      · cases he : a.assessment_type.is_exam <;> simp [hz, he]

/-- The accumulation loop of `calculate_scores` computes the sums of the
per-assessment contributions. -/
theorem foldl_calcStep (grades : List StudentGrade)
    (assessments : List SubjectAssessment) :
    ∀ acc : ℚ × ℚ × ℚ,
      assessments.foldl (calcStep grades) acc =
        (acc.1 + (assessments.map (caContrib grades)).sum,
         acc.2.1 + (assessments.map (examContrib grades)).sum,
         acc.2.2 + (assessments.map (caContrib grades)).sum +
           (assessments.map (examContrib grades)).sum) := by
  induction assessments with
  | nil => intro acc; simp
  | cons a as ih =>
    intro acc
    rw [List.foldl_cons, ih, calcStep_eq]
    simp only [List.map_cons, List.sum_cons, Prod.mk.injEq]
    refine ⟨by ring, by ring, by ring⟩

/-- Summing a function over a filtered list equals summing its zero-padded
version over the whole list. -/
theorem sum_map_ite {α : Type} (p : α → Bool) (f : α → ℚ) (l : List α) :
    (l.map (fun a => if p a then f a else 0)).sum =
      ((l.filter p).map f).sum := by
  induction l with
  | nil => rfl
  | cons a l ih =>
    by_cases h : p a
    · simp [h, List.filter_cons, ih]
    · simp [h, List.filter_cons, ih]

/-- An excused grade row is invisible to the lookup of `calculate_scores`:
the queryset filters on `is_excused=False`. -/
theorem firstGradeFor_excused_invisible (l1 l2 : List StudentGrade)
    (g : StudentGrade) (hg : g.is_excused = true) (a : SubjectAssessment) :
    firstGradeFor (l1 ++ g :: l2) a = firstGradeFor (l1 ++ l2) a := by
  unfold firstGradeFor
  rw [List.filter_append, List.filter_append, List.filter_cons]
  simp [hg]

/-- C2: after `calculate_scores` runs, `continuous_assessment_score` is the
sum of the weighted scores over the period's non-exam assessments that have a
non-excused `StudentGrade` with a non-`None` score, `exam_score` is the same
sum over exam assessments, `total_score` is the sum of both, and an excused
`StudentGrade` contributes to none of the three totals regardless of any
stored score value. -/
theorem calculate_scores_totals (assessments : List SubjectAssessment)
    (grades : List StudentGrade) (scale : List GradingScale) (tg : TermGrade) :
    ((calculate_scores assessments grades scale tg).continuous_assessment_score =
      some (((assessments.filter (fun a => !a.assessment_type.is_exam &&
          hasRecordedScore grades a)).map (weightedContribution grades)).sum)) ∧
    ((calculate_scores assessments grades scale tg).exam_score =
      some (((assessments.filter (fun a => a.assessment_type.is_exam &&
          hasRecordedScore grades a)).map (weightedContribution grades)).sum)) ∧
    ((calculate_scores assessments grades scale tg).total_score =
      some ((((assessments.filter (fun a => !a.assessment_type.is_exam &&
          hasRecordedScore grades a)).map (weightedContribution grades)).sum) +
        (((assessments.filter (fun a => a.assessment_type.is_exam &&
          hasRecordedScore grades a)).map (weightedContribution grades)).sum))) ∧
    (∀ (l1 l2 : List StudentGrade) (g : StudentGrade), g.is_excused = true →
      calculate_scores assessments (l1 ++ g :: l2) scale tg =
        calculate_scores assessments (l1 ++ l2) scale tg) := by
  have hca : (assessments.map (caContrib grades)).sum =
      ((assessments.filter (fun a => !a.assessment_type.is_exam &&
        hasRecordedScore grades a)).map (weightedContribution grades)).sum :=
    sum_map_ite _ _ _
  have hex : (assessments.map (examContrib grades)).sum =
      ((assessments.filter (fun a => a.assessment_type.is_exam &&
        hasRecordedScore grades a)).map (weightedContribution grades)).sum :=
    sum_map_ite _ _ _
  refine ⟨?_, ?_, ?_, ?_⟩
  · simp only [calculate_scores, foldl_calcStep, zero_add]
    rw [hca]
  · simp only [calculate_scores, foldl_calcStep, zero_add]
    rw [hex]
  · simp only [calculate_scores, foldl_calcStep, zero_add]
    rw [hca, hex]
  · intro l1 l2 g hg
    have hstep : calcStep (l1 ++ g :: l2) = calcStep (l1 ++ l2) := by
      funext acc a
      unfold calcStep
      rw [firstGradeFor_excused_invisible l1 l2 g hg a]
    unfold calculate_scores
    rw [hstep]

/-- C6: running `calculate_scores` twice with the assessments, student grades
and grading scale unchanged leaves every derived `TermGrade` field exactly as
after the first run. -/
theorem calculate_scores_idempotent (assessments : List SubjectAssessment)
    (grades : List StudentGrade) (scale : List GradingScale) (tg : TermGrade) :
    calculate_scores assessments grades scale
        (calculate_scores assessments grades scale tg) =
      calculate_scores assessments grades scale tg := by
  have hidem : ∀ (grade : String) (p : Option ℚ),
      grade_point_update scale grade (grade_point_update scale grade p) =
        grade_point_update scale grade p := by
    intro grade p
    unfold grade_point_update
    by_cases hgr : grade = ""
    · simp [hgr]
    · cases hb : (scale.filter (fun b => b.grade == grade)).head? with
      | none => simp [hgr, hb]
      | some b => simp [hgr, hb]
  unfold calculate_scores
  dsimp only
  rw [hidem]

/-- When the resolved grade symbol belongs to a band of a table with distinct
grade symbols and is non-empty, the `grade_point` update stores that band's
grade point. -/
theorem grade_point_update_of_band (scale : List GradingScale)
    (hnd : (scale.map (fun b => b.grade)).Nodup) (b : GradingScale)
    (hb : b ∈ scale) (hne : b.grade ≠ "") (p : Option ℚ) :
    grade_point_update scale b.grade p = some b.grade_point := by
  unfold grade_point_update
  rw [if_pos hne]
  cases hh : (scale.filter (fun q => q.grade == b.grade)).head? with
  | none =>
    exfalso
    have hbf : b ∈ scale.filter (fun q => q.grade == b.grade) :=
      List.mem_filter.mpr ⟨hb, by simp⟩
    cases hfe : scale.filter (fun q => q.grade == b.grade) with
    | nil => rw [hfe] at hbf; exact absurd hbf (List.not_mem_nil b)
    | cons x t => rw [hfe] at hh; simp at hh
  | some b' =>
    have hb' := head?_filter_mem hh
    have hbb : b' = b :=
      List.inj_on_of_nodup_map hnd hb'.1 hb (by simpa using hb'.2)
    rw [hbb]

/-- C3 (amended): one run of `calculate_scores` overwrites
`continuous_assessment_score`, `exam_score`, `total_score` and `grade`, whose
values are determined solely by the current assessments, student grades and
grading scale; `grade_point` is rewritten from the matching band when a band
with a non-empty grade symbol matches the computed total, and retains its
prior value when no band matches. -/
theorem calculate_scores_overwrites (assessments : List SubjectAssessment)
    (grades : List StudentGrade) (scale : List GradingScale)
    (tg1 tg2 : TermGrade)
    (hnd : (scale.map (fun b => b.grade)).Nodup) :
    ((calculate_scores assessments grades scale tg1).continuous_assessment_score =
      (calculate_scores assessments grades scale tg2).continuous_assessment_score) ∧
    ((calculate_scores assessments grades scale tg1).exam_score =
      (calculate_scores assessments grades scale tg2).exam_score) ∧
    ((calculate_scores assessments grades scale tg1).total_score =
      (calculate_scores assessments grades scale tg2).total_score) ∧
    ((calculate_scores assessments grades scale tg1).grade =
      (calculate_scores assessments grades scale tg2).grade) ∧
    (∀ t, (calculate_scores assessments grades scale tg1).total_score = some t →
      (scale.filter (bandContains t)).head? = none →
      (calculate_scores assessments grades scale tg1).grade_point =
        tg1.grade_point) ∧
    (∀ t b, (calculate_scores assessments grades scale tg1).total_score = some t →
      (scale.filter (bandContains t)).head? = some b → b.grade ≠ "" →
      (calculate_scores assessments grades scale tg1).grade_point =
        some b.grade_point) := by
  have hgp : ∀ tg : TermGrade,
      (calculate_scores assessments grades scale tg).grade_point =
        grade_point_update scale
          ((get_grade_for_score scale
            (some ((assessments.foldl (calcStep grades) (0, 0, 0)).2.2))).getD "")
          tg.grade_point := fun _ => rfl
  have htot : ∀ tg : TermGrade,
      (calculate_scores assessments grades scale tg).total_score =
        some ((assessments.foldl (calcStep grades) (0, 0, 0)).2.2) :=
    fun _ => rfl
  refine ⟨rfl, rfl, rfl, rfl, ?_, ?_⟩
  · intro t ht hnone
    rw [htot tg1] at ht
    have hacc := Option.some.inj ht
    rw [hgp tg1, hacc]
    have hg : get_grade_for_score scale (some t) = none := by
      simp only [get_grade_for_score]
      rw [hnone]
    rw [hg]
    rfl
  · intro t b ht hb hne
    rw [htot tg1] at ht
    have hacc := Option.some.inj ht
    rw [hgp tg1, hacc]
    have hg : get_grade_for_score scale (some t) = some b.grade := by
      simp only [get_grade_for_score]
      rw [hb]
    rw [hg]
    exact grade_point_update_of_band scale hnd b (head?_filter_mem hb).1 hne _

/-- C3 (witness): the amended overwrite theorem applied to an empty
assessment list, a one-band scale with distinct grade symbols, and two
distinct prior states. -/
theorem calculate_scores_overwrites_witness :
    (([⟨"A1", 50, 100, 4⟩] : List GradingScale).map (fun b => b.grade)).Nodup ∧
    (((calculate_scores [] [] [⟨"A1", 50, 100, 4⟩]
        ⟨none, none, none, "", some 3⟩).continuous_assessment_score =
      (calculate_scores [] [] [⟨"A1", 50, 100, 4⟩]
        ⟨none, none, none, "", none⟩).continuous_assessment_score) ∧
    ((calculate_scores [] [] [⟨"A1", 50, 100, 4⟩]
        ⟨none, none, none, "", some 3⟩).exam_score =
      (calculate_scores [] [] [⟨"A1", 50, 100, 4⟩]
        ⟨none, none, none, "", none⟩).exam_score) ∧
    ((calculate_scores [] [] [⟨"A1", 50, 100, 4⟩]
        ⟨none, none, none, "", some 3⟩).total_score =
      (calculate_scores [] [] [⟨"A1", 50, 100, 4⟩]
        ⟨none, none, none, "", none⟩).total_score) ∧
    ((calculate_scores [] [] [⟨"A1", 50, 100, 4⟩]
        ⟨none, none, none, "", some 3⟩).grade =
      (calculate_scores [] [] [⟨"A1", 50, 100, 4⟩]
        ⟨none, none, none, "", none⟩).grade) ∧
    (∀ t, (calculate_scores [] [] [⟨"A1", 50, 100, 4⟩]
        ⟨none, none, none, "", some 3⟩).total_score = some t →
      (([⟨"A1", 50, 100, 4⟩] : List GradingScale).filter
        (bandContains t)).head? = none →
      (calculate_scores [] [] [⟨"A1", 50, 100, 4⟩]
        ⟨none, none, none, "", some 3⟩).grade_point = some 3) ∧
    (∀ t b, (calculate_scores [] [] [⟨"A1", 50, 100, 4⟩]
        ⟨none, none, none, "", some 3⟩).total_score = some t →
      (([⟨"A1", 50, 100, 4⟩] : List GradingScale).filter
        (bandContains t)).head? = some b → b.grade ≠ "" →
      (calculate_scores [] [] [⟨"A1", 50, 100, 4⟩]
        ⟨none, none, none, "", some 3⟩).grade_point = some b.grade_point)) :=
  ⟨by decide,
   calculate_scores_overwrites [] [] [⟨"A1", 50, 100, 4⟩]
     ⟨none, none, none, "", some 3⟩ ⟨none, none, none, "", none⟩ (by decide)⟩

/-- C8: for a grading-scale table in its default descending `min_score`
ordering, `get_grade_for_score` returns the grade of a band containing the
score whose `min_score` is greatest among all containing bands, returns
`None` when no band contains the score, and in that case `calculate_scores`
leaves the `grade` field as the empty string. -/
theorem resolve_grade_greatest_min_score (scale : List GradingScale)
    (hsorted : scale.Pairwise (fun b1 b2 => b2.min_score ≤ b1.min_score)) :
    (∀ (s : ℚ) (b : GradingScale),
      (scale.filter (bandContains s)).head? = some b →
      get_grade_for_score scale (some s) = some b.grade ∧ b ∈ scale ∧
        bandContains s b = true ∧
        ∀ b' ∈ scale, bandContains s b' = true → b'.min_score ≤ b.min_score) ∧
    (∀ s : ℚ, (∀ b ∈ scale, bandContains s b = false) →
      get_grade_for_score scale (some s) = none) ∧
    (∀ (assessments : List SubjectAssessment) (grades : List StudentGrade)
        (tg : TermGrade),
      get_grade_for_score scale
          ((calculate_scores assessments grades scale tg).total_score) = none →
      (calculate_scores assessments grades scale tg).grade = "") := by
  refine ⟨?_, ?_, ?_⟩
  · intro s b hb
    have hmem := head?_filter_mem hb
    refine ⟨?_, hmem.1, hmem.2, ?_⟩
    · simp only [get_grade_for_score]
      rw [hb]
    · intro b' hb' hc'
      have hpf : (scale.filter (bandContains s)).Pairwise
          (fun b1 b2 => b2.min_score ≤ b1.min_score) :=
        hsorted.sublist (List.filter_sublist scale)
      obtain ⟨t, hft⟩ : ∃ t, scale.filter (bandContains s) = b :: t := by
        cases hfe : scale.filter (bandContains s) with
        | nil => rw [hfe] at hb; simp at hb
        | cons x t =>
          rw [hfe] at hb
          simp only [List.head?_cons, Option.some.injEq] at hb
          exact ⟨t, by rw [hb]⟩
      have hbf' : b' ∈ scale.filter (bandContains s) :=
        List.mem_filter.mpr ⟨hb', hc'⟩
      rw [hft] at hbf' hpf
      rcases List.mem_cons.mp hbf' with h | h
      · rw [h]
      · exact (List.pairwise_cons.mp hpf).1 b' h
  · intro s hnone
    simp only [get_grade_for_score]
    rw [List.filter_eq_nil_iff.mpr (by simpa using hnone)]
    rfl
  · intro assessments grades tg ht
    have hg : get_grade_for_score scale
        (some ((assessments.foldl (calcStep grades) (0, 0, 0)).2.2)) = none := ht
    show (get_grade_for_score scale
      (some ((assessments.foldl (calcStep grades) (0, 0, 0)).2.2))).getD "" = ""
    rw [hg]
    rfl

/-- C8 (witness): the resolver theorem applied to a two-band table sorted by
descending `min_score`. -/
theorem resolve_grade_greatest_min_score_witness :
    ([⟨"A1", 80, 100, 4⟩, ⟨"B2", 70, 79, 3⟩] : List GradingScale).Pairwise
      (fun b1 b2 => b2.min_score ≤ b1.min_score) ∧
    get_grade_for_score [⟨"A1", 80, 100, 4⟩, ⟨"B2", 70, 79, 3⟩] (some 75) =
      some "B2" :=
  ⟨by decide,
   ((resolve_grade_greatest_min_score
      [⟨"A1", 80, 100, 4⟩, ⟨"B2", 70, 79, 3⟩] (by decide)).1 75
      ⟨"B2", 70, 79, 3⟩ (by decide)).1⟩

/-- Counting current periods distributes over append. -/
theorem currentCount_append (l1 l2 : List GradingPeriod) :
    currentCount (l1 ++ l2) = currentCount l1 + currentCount l2 := by
  unfold currentCount
  rw [List.filter_append, List.length_append]

/-- Counting current periods unfolds over cons. -/
theorem currentCount_cons (q : GradingPeriod) (l : List GradingPeriod) :
    currentCount (q :: l) =
      (if q.is_current then 1 else 0) + currentCount l := by
  unfold currentCount
  rw [List.filter_cons]
  cases h : q.is_current <;> simp [h, Nat.add_comm]

/-- A table whose rows all have `is_current=False` has no current period. -/
theorem currentCount_eq_zero (l : List GradingPeriod)
    (h : ∀ q ∈ l, q.is_current = false) : currentCount l = 0 := by
  unfold currentCount
  rw [List.filter_eq_nil_iff.mpr (by simpa using h)]
  rfl

/-- The blanket `update(is_current=False)` clears every current flag. -/
theorem currentCount_cleared (db : List GradingPeriod) :
    currentCount (db.map (fun q => { q with is_current := false })) = 0 := by
  apply currentCount_eq_zero
  intro q hq
  obtain ⟨r, _, hr⟩ := List.mem_map.mp hq
  rw [← hr]

/-- The cleared table keeps the primary keys of the original table. -/
theorem cleared_ids (db : List GradingPeriod) :
    (db.map (fun q => { q with is_current := false })).map (fun q => q.id) =
      db.map (fun q => q.id) := by
  induction db with
  | nil => rfl
  | cons q l ih => simp [ih]

/-- Upserting into an all-cleared table with unique primary keys yields
exactly one current row when the saved row is current, none otherwise. -/
theorem currentCount_replace_all_false (p : GradingPeriod) :
    ∀ l : List GradingPeriod, (∀ q ∈ l, q.is_current = false) →
      (l.map (fun q => q.id)).Nodup → l.any (fun q => q.id == p.id) = true →
      currentCount (l.map (fun q => if q.id == p.id then p else q)) =
        (if p.is_current then 1 else 0) := by
  intro l
  induction l with
  | nil => intro _ _ hany; simp at hany
  | cons q l ih =>
    intro hfalse hnd hany
    rw [List.map_cons]
    by_cases hq : q.id = p.id
    · rw [if_pos (beq_iff_eq.mpr hq), currentCount_cons]
      have hrest : l.map (fun r => if r.id == p.id then p else r) = l := by
        have hnotin : p.id ∉ l.map (fun r => r.id) := by
          have h1 := (List.nodup_cons.mp hnd).1
          simpa [hq] using h1
        have heach : ∀ r ∈ l, (if r.id == p.id then p else r) = r := by
          intro r hr
          have : r.id ≠ p.id := fun he =>
            hnotin (he ▸ List.mem_map_of_mem (fun x => x.id) hr)
          rw [if_neg (by simpa using this)]
        rw [List.map_congr_left heach]
        exact List.map_id' l
      rw [hrest, currentCount_eq_zero l (fun r hr => hfalse r (List.mem_cons_of_mem q hr)),
        Nat.add_zero]
    · rw [if_neg (by simpa using hq), currentCount_cons,
        hfalse q (List.mem_cons_self q l)]
      have hany' : l.any (fun r => r.id == p.id) = true := by
        rcases List.any_eq_true.mp hany with ⟨r, hr, hrp⟩
        rcases List.mem_cons.mp hr with h | h
        · exact absurd (beq_iff_eq.mp (h ▸ hrp)) hq
        · exact List.any_eq_true.mpr ⟨r, h, hrp⟩
      rw [ih (fun r hr => hfalse r (List.mem_cons_of_mem q hr))
        (List.nodup_cons.mp hnd).2 hany']
      simp

/-- Upserting a non-current row never increases the number of current rows. -/
theorem currentCount_replace_le (p : GradingPeriod)
    (hp : p.is_current = false) :
    ∀ l : List GradingPeriod,
      currentCount (l.map (fun q => if q.id == p.id then p else q)) ≤
        currentCount l := by
  intro l
  induction l with
  | nil => exact Nat.le_refl 0
  | cons q l ih =>
    rw [List.map_cons, currentCount_cons, currentCount_cons]
    by_cases hq : q.id = p.id
    · have hb : (q.id == p.id) = true := beq_iff_eq.mpr hq
      simp only [hb, if_true, hp, Bool.false_eq_true, if_false, Nat.zero_add]
      exact le_trans ih (Nat.le_add_left _ _)
    · have hb : (q.id == p.id) = false := beq_eq_false_iff_ne.mpr hq
      simp only [hb, Bool.false_eq_true, if_false]
      exact Nat.add_le_add_left ih _

/-- C9: at most one `GradingPeriod` has `is_current=True` at any time.
Saving a period with `is_current=True` first clears the flag on all rows and
yields exactly one current row; saving a non-current period never increases
the count; and `set_current_period` always ends with exactly one current
row.  Creates and edits both go through `GradingPeriod.save`, so the
invariant is preserved by every such operation over a table with unique
primary keys. -/
theorem current_period_invariant (db : List GradingPeriod) (p : GradingPeriod)
    (hid : (db.map (fun q => q.id)).Nodup) (hinv : currentCount db ≤ 1) :
    currentCount (save_period db p) ≤ 1 ∧
    (p.is_current = true → currentCount (save_period db p) = 1) ∧
    currentCount (set_current_period db p) = 1 := by
  have hcurrent : ∀ q : GradingPeriod, q.is_current = true →
      currentCount (save_period db q) = 1 := by
    intro q hq
    unfold save_period upsertPeriod
    rw [if_pos hq]
    have hfalse : ∀ r ∈ db.map (fun r => { r with is_current := false }),
        r.is_current = false := by
      intro r hr
      obtain ⟨x, _, hx⟩ := List.mem_map.mp hr
      rw [← hx]
    have hnd : ((db.map (fun r => { r with is_current := false })).map
        (fun r => r.id)).Nodup := by
      rw [cleared_ids]
      exact hid
    by_cases hany : (db.map (fun r => { r with is_current := false })).any
        (fun r => r.id == q.id) = true
    · rw [if_pos hany, currentCount_replace_all_false q _ hfalse hnd hany,
        if_pos hq]
    · rw [if_neg hany, currentCount_append, currentCount_cleared,
        currentCount_cons]
      rw [hq]
      rfl
  refine ⟨?_, hcurrent p, hcurrent _ rfl⟩
  by_cases hpc : p.is_current = true
  · rw [hcurrent p hpc]
  · have hp : p.is_current = false := by
      cases h : p.is_current
      · rfl
      · exact absurd h hpc
    unfold save_period upsertPeriod
    rw [if_neg (show ¬ (p.is_current = true) by simp [hp])]
    by_cases hany : db.any (fun r => r.id == p.id) = true
    · rw [if_pos hany]
      exact le_trans (currentCount_replace_le p hp db) hinv
    · rw [if_neg hany, currentCount_append, currentCount_cons, hp]
      simpa using hinv

/-- C9 (witness): the invariant theorem applied to a two-row table with one
current period, saving an edit that makes the other period current. -/
theorem current_period_invariant_witness :
    (([⟨1, true⟩, ⟨2, false⟩] : List GradingPeriod).map
      (fun q => q.id)).Nodup ∧
    currentCount [⟨1, true⟩, ⟨2, false⟩] ≤ 1 ∧
    currentCount (save_period [⟨1, true⟩, ⟨2, false⟩] ⟨2, true⟩) ≤ 1 ∧
    (( ⟨2, true⟩ : GradingPeriod).is_current = true →
      currentCount (save_period [⟨1, true⟩, ⟨2, false⟩] ⟨2, true⟩) = 1) ∧
    currentCount (set_current_period [⟨1, true⟩, ⟨2, false⟩] ⟨2, true⟩) = 1 :=
  ⟨by decide, by decide,
   (current_period_invariant [⟨1, true⟩, ⟨2, false⟩] ⟨2, true⟩
     (by decide) (by decide)).1,
   (current_period_invariant [⟨1, true⟩, ⟨2, false⟩] ⟨2, true⟩
     (by decide) (by decide)).2.1,
   (current_period_invariant [⟨1, true⟩, ⟨2, false⟩] ⟨2, true⟩
     (by decide) (by decide)).2.2⟩

/-- For a non-excused grade row with a recorded score in range, the computed
percentage is `score / max_score * 100` and lies in `[0, 100]`. -/
theorem get_percentage_bounds (a : SubjectAssessment) (g : StudentGrade)
    (s : ℚ) (hex : g.is_excused = false) (hs : g.score = some s)
    (h0 : 0 ≤ s) (hmax : s ≤ (a.max_score : ℚ)) (hm : 1 ≤ a.max_score) :
    get_percentage a g = some (s / (a.max_score : ℚ) * 100) ∧
      0 ≤ s / (a.max_score : ℚ) * 100 ∧ s / (a.max_score : ℚ) * 100 ≤ 100 := by
  have hpos : (0:ℚ) < (a.max_score : ℚ) := by
    exact_mod_cast Nat.lt_of_lt_of_le Nat.zero_lt_one hm
  refine ⟨?_, ?_, ?_⟩
  · unfold get_percentage
    rw [hs]
    simp [hex]
  · exact mul_nonneg (div_nonneg h0 hpos.le) (by norm_num)
  · have hdiv : s / (a.max_score : ℚ) ≤ 1 := (div_le_one hpos).mpr hmax
    calc s / (a.max_score : ℚ) * 100 ≤ 1 * 100 :=
          mul_le_mul_of_nonneg_right hdiv (by norm_num)
      _ = 100 := one_mul 100

/-- For a non-excused grade row with a recorded score in range, the weighted
score is defined and lies in `[0, weight]`. -/
theorem get_weighted_score_bounds (a : SubjectAssessment) (g : StudentGrade)
    (s : ℚ) (hex : g.is_excused = false) (hs : g.score = some s)
    (h0 : 0 ≤ s) (hmax : s ≤ (a.max_score : ℚ)) (hm : 1 ≤ a.max_score)
    (hw : 0 ≤ a.weight) :
    ∃ w, get_weighted_score a g = some w ∧ 0 ≤ w ∧ w ≤ a.weight := by
  obtain ⟨hp, hp0, hp100⟩ := get_percentage_bounds a g s hex hs h0 hmax hm
  refine ⟨s / (a.max_score : ℚ) * 100 * a.weight / 100, ?_, ?_, ?_⟩
  · unfold get_weighted_score
    rw [hp]
  · exact div_nonneg (mul_nonneg hp0 hw) (by norm_num)
  · rw [div_le_iff₀ (by norm_num : (0:ℚ) < 100)]
    calc s / (a.max_score : ℚ) * 100 * a.weight ≤ 100 * a.weight :=
          mul_le_mul_of_nonneg_right hp100 hw
      _ = a.weight * 100 := mul_comm _ _

/-- The combined per-assessment contribution to the total never exceeds the
assessment's weight when the ledger scores are in range. -/
theorem contribs_le_weight (grades : List StudentGrade) (a : SubjectAssessment)
    (hm : 1 ≤ a.max_score) (hw : 0 ≤ a.weight)
    (hsc : ∀ g, firstGradeFor grades a = some g →
      ∀ s, g.score = some s → 0 ≤ s ∧ s ≤ (a.max_score : ℚ)) :
    caContrib grades a + examContrib grades a ≤ a.weight := by
  unfold caContrib examContrib
  cases hhas : hasRecordedScore grades a with
  | false => simp [hhas, hw]
  | true =>
    unfold hasRecordedScore at hhas
    cases hf : firstGradeFor grades a with
    | none => rw [hf] at hhas; simp at hhas
    | some g =>
      rw [hf] at hhas
      obtain ⟨s, hs⟩ := Option.isSome_iff_exists.mp hhas
      have hex := (firstGradeFor_spec hf).2.2
      obtain ⟨hb0, hbmax⟩ := hsc g hf s hs
      obtain ⟨w, hwsc, hw0, hwle⟩ :=
        get_weighted_score_bounds a g s hex hs hb0 hbmax hm hw
      have hwc : weightedContribution grades a = w := by
        unfold weightedContribution
        rw [hf]
        simp [hwsc]
      cases he : a.assessment_type.is_exam <;> simp [he, hwc, hwle]

/-- C10: for every non-excused `StudentGrade` with a recorded score in
`[0, max_score]`, `get_percentage` lies in `[0, 100]` and
`get_weighted_score` lies in `[0, weight]`; consequently a `total_score`
computed by `calculate_scores` never exceeds the sum of the weights of the
period's assessments. -/
theorem weighted_score_in_range (a : SubjectAssessment) (g : StudentGrade)
    (s : ℚ) (hex : g.is_excused = false) (hs : g.score = some s)
    (h0 : 0 ≤ s) (hmax : s ≤ (a.max_score : ℚ)) (hm : 1 ≤ a.max_score)
    (hw : 0 ≤ a.weight) :
    (∃ pct, get_percentage a g = some pct ∧ 0 ≤ pct ∧ pct ≤ 100) ∧
    (∃ w, get_weighted_score a g = some w ∧ 0 ≤ w ∧ w ≤ a.weight) ∧
    (∀ (assessments : List SubjectAssessment) (grades : List StudentGrade)
        (scale : List GradingScale) (tg : TermGrade),
      (∀ a' ∈ assessments, 1 ≤ a'.max_score ∧ 0 ≤ a'.weight) →
      (∀ a' ∈ assessments, ∀ g', firstGradeFor grades a' = some g' →
        ∀ s', g'.score = some s' → 0 ≤ s' ∧ s' ≤ (a'.max_score : ℚ)) →
      ∃ t, (calculate_scores assessments grades scale tg).total_score = some t ∧
        t ≤ (assessments.map (fun a' => a'.weight)).sum) := by
  refine ⟨?_, get_weighted_score_bounds a g s hex hs h0 hmax hm hw, ?_⟩
  · obtain ⟨hp, hp0, hp100⟩ := get_percentage_bounds a g s hex hs h0 hmax hm
    exact ⟨_, hp, hp0, hp100⟩
  · intro assessments grades scale tg hweights hscores
    refine ⟨(assessments.foldl (calcStep grades) (0, 0, 0)).2.2, rfl, ?_⟩
    rw [foldl_calcStep grades assessments ((0:ℚ), (0:ℚ), (0:ℚ))]
    dsimp only
    rw [zero_add, ← List.sum_map_add]
    exact List.sum_le_sum (fun a' ha' =>
      contribs_le_weight grades a' (hweights a' ha').1 (hweights a' ha').2
        (hscores a' ha'))

/-- C10 (witness): the range theorem applied to the assessment
`max_score = 20, weight = 10` with recorded score `18`. -/
theorem weighted_score_in_range_witness :
    ((⟨1, some 18, false⟩ : StudentGrade).is_excused = false ∧
      (⟨1, some 18, false⟩ : StudentGrade).score = some 18 ∧
      (0:ℚ) ≤ 18 ∧
      (18:ℚ) ≤ ((⟨1, 20, 10, ⟨false⟩⟩ : SubjectAssessment).max_score : ℚ) ∧
      1 ≤ (⟨1, 20, 10, ⟨false⟩⟩ : SubjectAssessment).max_score ∧
      (0:ℚ) ≤ (⟨1, 20, 10, ⟨false⟩⟩ : SubjectAssessment).weight) ∧
    ((∃ pct, get_percentage ⟨1, 20, 10, ⟨false⟩⟩ ⟨1, some 18, false⟩ =
        some pct ∧ 0 ≤ pct ∧ pct ≤ 100) ∧
    (∃ w, get_weighted_score ⟨1, 20, 10, ⟨false⟩⟩ ⟨1, some 18, false⟩ =
        some w ∧ 0 ≤ w ∧
        w ≤ (⟨1, 20, 10, ⟨false⟩⟩ : SubjectAssessment).weight) ∧
    (∀ (assessments : List SubjectAssessment) (grades : List StudentGrade)
        (scale : List GradingScale) (tg : TermGrade),
      (∀ a' ∈ assessments, 1 ≤ a'.max_score ∧ 0 ≤ a'.weight) →
      (∀ a' ∈ assessments, ∀ g', firstGradeFor grades a' = some g' →
        ∀ s', g'.score = some s' → 0 ≤ s' ∧ s' ≤ (a'.max_score : ℚ)) →
      ∃ t, (calculate_scores assessments grades scale tg).total_score = some t ∧
        t ≤ (assessments.map (fun a' => a'.weight)).sum)) :=
  ⟨⟨rfl, rfl, by decide, by decide, by decide, by decide⟩,
   weighted_score_in_range ⟨1, 20, 10, ⟨false⟩⟩ ⟨1, some 18, false⟩ 18
     rfl rfl (by decide) (by decide) (by decide) (by decide)⟩

end SIS
